import Mathlib

/-!
Shallow embedding of `mmapcell` (src/lib.rs): a typed wrapper `MmapCell<T>`
around a mutable memory mapping obtained from `memmap2`.

The model works at the byte level. A value of the phantom type `T` is
represented by its byte image, a `List Byte` of length `size_of::<T>()`;
the size is passed explicitly as a parameter `n`. The operating system is
modelled by a state `Sys` holding the filesystem (an association list from
path to file bytes) and the table of live memory mappings. The source
functions `new`, `new_anon`, `new_named`, `open_named`, `get`, writes
through `get_mut`, `flush` and `Drop::drop` become pure state-passing
functions on `Sys`.
-/

/-- A byte, modelled as a natural number (values 0 to 255 in practice;
the model never computes on byte values, only moves them around). -/
abbrev Byte := Nat

/-- One OS memory mapping: its current bytes and, for file-backed mappings,
the path of the backing file (`none` for anonymous mappings). -/
structure Mapping where
  bytes : List Byte
  file : Option String
deriving DecidableEq, Repr

/-- OS state: the filesystem (association list from path to file bytes) and
the table of live memory mappings, addressed by index. -/
structure Sys where
  fs : List (String × List Byte)
  maps : List Mapping
deriving DecidableEq, Repr

/-- The wrapper from src/lib.rs: `MmapCell<T>` holds one field `raw : MmapMut`
(here the index of the owned mapping in `Sys.maps`) and a phantom marker. -/
structure MmapCell where
  raw : Nat
deriving DecidableEq, Repr

/-- Look a path up in the filesystem. -/
def fsLookup (fs : List (String × List Byte)) (p : String) : Option (List Byte) :=
  match fs with
  | [] => none
  | e :: rest => if e.1 = p then some e.2 else fsLookup rest p

/-- Write a file: replace the entry for `p`, or append one if absent. -/
def fsUpdate (fs : List (String × List Byte)) (p : String) (bs : List Byte) :
    List (String × List Byte) :=
  match fs with
  | [] => [(p, bs)]
  | e :: rest => if e.1 = p then (p, bs) :: rest else e :: fsUpdate rest p bs

/-- Apply `f` to the mapping at index `i`, leaving every other index alone. -/
def modifyMapping (ms : List Mapping) (i : Nat) (f : Mapping → Mapping) :
    List Mapping :=
  match ms, i with
  | [], _ => []
  | m :: rest, 0 => f m :: rest
  | m :: rest, i + 1 => m :: modifyMapping rest i f

/-- The bytes currently held by mapping number `id` (empty if no such mapping). -/
def Sys.mapBytes (s : Sys) (id : Nat) : List Byte :=
  match s.maps[id]? with
  | some m => m.bytes
  | none => []

/-- Install a fresh mapping and return its index. -/
def Sys.alloc (s : Sys) (m : Mapping) : Sys × Nat :=
  ({ s with maps := s.maps ++ [m] }, s.maps.length)

/-- Rust `File::set_len` (POSIX ftruncate): truncate the file to `n` bytes if
it is longer, extend it with zero bytes if it is shorter. -/
def setLen (bs : List Byte) (n : Nat) : List Byte :=
  bs.take n ++ List.replicate (n - bs.length) 0

/-- Embeds `MmapCell::new` (src/lib.rs lines 67 to 74): store the given
mapping handle in the wrapper. The body performs no length or alignment
check and has no effect on the state. -/
def MmapCell.new (s : Sys) (id : Nat) : Sys × MmapCell :=
  (s, ⟨id⟩)

/-- Embeds `MmapCell::new_anon` (line 76 to 78): ask the OS for an anonymous
writable mapping of length `size_of::<T>()`; anonymous mappings are
zero-filled. `n` is `size_of::<T>()`. -/
def MmapCell.new_anon (n : Nat) (s : Sys) : Sys × MmapCell :=
  match s.alloc ⟨List.replicate n 0, none⟩ with
  | (s1, id) => MmapCell.new s1 id

/-- Embeds `MmapCell::new_named` (lines 83 to 95): open the file read/write
with create(true) and truncate(false) (an absent file is created empty,
existing content is kept), call `set_len(size_of::<T>())`, then map the
whole resulting file writable. `n` is `size_of::<T>()`. -/
def MmapCell.new_named (n : Nat) (s : Sys) (p : String) : Sys × MmapCell :=
  match setLen ((fsLookup s.fs p).getD []) n with
  | content =>
    match Sys.alloc { s with fs := fsUpdate s.fs p content } ⟨content, some p⟩ with
    | (s1, id) => MmapCell.new s1 id

/-- Embeds `MmapCell::open_named` (lines 100 to 111): open the file
read/write with create(false) and truncate(false); fails (I/O error,
here `none`) when the file is absent; otherwise maps the whole file
writable without resizing it. The size of `T` is not consulted. -/
def MmapCell.open_named (s : Sys) (p : String) : Option (Sys × MmapCell) :=
  match fsLookup s.fs p with
  | none => none
  | some bs =>
    match s.alloc ⟨bs, some p⟩ with
    | (s1, id) => some (MmapCell.new s1 id)

/-- Embeds `MmapCell::get` (lines 113 to 115): read the mapped value, that
is, the bytes of `T` at the base address of the mapping. `n` is
`size_of::<T>()`. -/
def MmapCell.get (n : Nat) (s : Sys) (c : MmapCell) : List Byte :=
  (s.mapBytes c.raw).take n

/-- A write of value `v` through the reference returned by `MmapCell::get_mut`
(lines 117 to 119): the bytes of `v` overwrite the mapping starting at its
base address; bytes past the value are untouched. -/
def writeBytes (v : List Byte) (m : Mapping) : Mapping :=
  { m with bytes := v ++ m.bytes.drop v.length }

/-- The state after a write of `v` through `MmapCell::get_mut` on cell `c`. -/
def MmapCell.get_mut_write (s : Sys) (c : MmapCell) (v : List Byte) : Sys :=
  { s with maps := modifyMapping s.maps c.raw (writeBytes v) }

/-- Embeds `MmapMut::flush` as used by the wrapper: write the bytes of the
mapping back to its backing file; no effect for anonymous mappings. -/
def Sys.flush (s : Sys) (c : MmapCell) : Sys :=
  match s.maps[c.raw]? with
  | some m =>
    match m.file with
    | some p => { s with fs := fsUpdate s.fs p m.bytes }
    | none => s
  | none => s

/-- Embeds `impl Drop for MmapCell` (lines 38 to 43): `let _ = self.raw.flush()`.
Exactly one flush is attempted; its outcome (`ok`), decided by the OS, is
discarded, so drop returns a plain state in both cases and never signals an
error. The returned list records the outcome of each flush attempt made. -/
def MmapCell.dropCell (ok : Bool) (s : Sys) (c : MmapCell) : Sys × List Bool :=
  (if ok then s.flush c else s, [ok])

/-! Helper lemmas about the model. -/

theorem fsLookup_fsUpdate_self (fs : List (String × List Byte)) (p : String)
    (bs : List Byte) : fsLookup (fsUpdate fs p bs) p = some bs := by
  induction fs with
  | nil => simp [fsUpdate, fsLookup]
  | cons e rest ih =>
    by_cases h : e.1 = p
    · simp [fsUpdate, fsLookup, h]
    · simp [fsUpdate, fsLookup, h, ih]

theorem getElem?_append_last (l : List α) (a : α) : (l ++ [a])[l.length]? = some a := by
  induction l with
  | nil => rfl
  | cons x xs ih => simp [ih]

theorem getElem?_append_left_of_lt (l : List α) (a : α) (i : Nat)
    (h : i < l.length) : (l ++ [a])[i]? = l[i]? := by
  induction l generalizing i with
  | nil => simp at h
  | cons x xs ih =>
    cases i with
    | zero => simp
    | succ j => simpa using ih j (by simpa using h)

theorem modifyMapping_getElem?_self (ms : List Mapping) (i : Nat)
    (f : Mapping → Mapping) : (modifyMapping ms i f)[i]? = (ms[i]?).map f := by
  induction ms generalizing i with
  | nil => simp [modifyMapping]
  | cons m rest ih =>
    cases i with
    | zero => simp [modifyMapping]
    | succ j => simpa [modifyMapping] using ih j

theorem modifyMapping_getElem?_ne (ms : List Mapping) (i j : Nat)
    (f : Mapping → Mapping) (h : i ≠ j) :
    (modifyMapping ms i f)[j]? = ms[j]? := by
  induction ms generalizing i j with
  | nil => simp [modifyMapping]
  | cons m rest ih =>
    cases i with
    | zero =>
      cases j with
      | zero => exact absurd rfl h
      | succ k => simp [modifyMapping]
    | succ i0 =>
      cases j with
      | zero => simp [modifyMapping]
      | succ k => simpa [modifyMapping] using ih i0 k (by omega)

theorem length_setLen (bs : List Byte) (n : Nat) : (setLen bs n).length = n := by
  simp [setLen]
  omega

theorem setLen_of_length_le (bs : List Byte) (n : Nat) (h : bs.length ≤ n) :
    setLen bs n = bs ++ List.replicate (n - bs.length) 0 := by
  simp [setLen, List.take_of_length_le h]

theorem setLen_of_le_length (bs : List Byte) (n : Nat) (h : n ≤ bs.length) :
    setLen bs n = bs.take n := by
  simp [setLen, Nat.sub_eq_zero_of_le h]

theorem mapBytes_new_anon (n : Nat) (s : Sys) :
    Sys.mapBytes (MmapCell.new_anon n s).1 (MmapCell.new_anon n s).2.raw =
      List.replicate n 0 := by
  simp [MmapCell.new_anon, Sys.alloc, MmapCell.new, Sys.mapBytes,
    getElem?_append_last]

theorem mapBytes_get_mut_write (s : Sys) (c : MmapCell) (v : List Byte)
    (m : Mapping) (hm : s.maps[c.raw]? = some m) :
    Sys.mapBytes (MmapCell.get_mut_write s c v) c.raw =
      v ++ m.bytes.drop v.length := by
  simp [MmapCell.get_mut_write, Sys.mapBytes, modifyMapping_getElem?_self, hm,
    writeBytes]

theorem mapBytes_get_mut_write_ne (s : Sys) (c : MmapCell) (v : List Byte)
    (i : Nat) (h : c.raw ≠ i) :
    Sys.mapBytes (MmapCell.get_mut_write s c v) i = Sys.mapBytes s i := by
  simp [MmapCell.get_mut_write, Sys.mapBytes, modifyMapping_getElem?_ne _ _ _ _ h]

theorem flush_maps (s : Sys) (c : MmapCell) : (s.flush c).maps = s.maps := by
  unfold Sys.flush
  split
  all_goals try rfl
  split <;> rfl

theorem flush_fs_of_named (s : Sys) (c : MmapCell) (bs : List Byte) (p : String)
    (h : s.maps[c.raw]? = some ⟨bs, some p⟩) :
    (s.flush c).fs = fsUpdate s.fs p bs := by
  unfold Sys.flush
  rw [h]

theorem dropCell_maps (ok : Bool) (s : Sys) (c : MmapCell) :
    (MmapCell.dropCell ok s c).1.maps = s.maps := by
  cases ok with
  | false => rfl
  | true => simpa [MmapCell.dropCell] using flush_maps s c

/-! Claim theorems. -/

/-- C1: for every plain-old-data type `T` (here: every size `n` and every
byte image `v` of length `n`) and every starting state, constructing an
instance with `new_anon`, writing `v` through the reference returned by
`get_mut`, and then reading through the reference returned by `get` yields
a value bitwise identical to `v`. -/
theorem anon_write_read_round_trip (n : Nat) (s0 : Sys) (v : List Byte)
    (hv : v.length = n) :
    MmapCell.get n
      (MmapCell.get_mut_write (MmapCell.new_anon n s0).1
        (MmapCell.new_anon n s0).2 v)
      (MmapCell.new_anon n s0).2 = v := by
  have hm : ((MmapCell.new_anon n s0).1).maps[(MmapCell.new_anon n s0).2.raw]? =
      some ⟨List.replicate n 0, none⟩ := by
    simp [MmapCell.new_anon, Sys.alloc, MmapCell.new, getElem?_append_last]
  rw [MmapCell.get, mapBytes_get_mut_write _ _ _ _ hm]
  subst hv
  simp [List.drop_replicate]

/-- C1 witness: concrete instance at size 2 with value bytes `[7, 9]`. -/
theorem anon_write_read_round_trip_witness :
    ([7, 9] : List Byte).length = 2 ∧
      MmapCell.get 2
        (MmapCell.get_mut_write (MmapCell.new_anon 2 ⟨[], []⟩).1
          (MmapCell.new_anon 2 ⟨[], []⟩).2 [7, 9])
        (MmapCell.new_anon 2 ⟨[], []⟩).2 = [7, 9] :=
  ⟨by decide, anon_write_read_round_trip 2 ⟨[], []⟩ [7, 9] (by decide)⟩

/-- C2: a freshly constructed `new_anon` instance, read via `get` before any
write, equals the all-zero-bytes representation of `T` (the anonymous
mapping is zero-filled at construction). -/
theorem anon_zero_initialized (n : Nat) (s0 : Sys) :
    MmapCell.get n (MmapCell.new_anon n s0).1 (MmapCell.new_anon n s0).2 =
      List.replicate n 0 := by
  rw [MmapCell.get, mapBytes_new_anon]
  simp

/-- C7: on drop, exactly one flush of the mapping is attempted, and the
outcome is discarded: whether the flush succeeded (`ok = true`) or failed
(`ok = false`), drop returns a plain state (no error, no panic, no retry);
on failure the state is exactly the pre-drop state. -/
theorem drop_flushes_once_discards_failure (ok : Bool) (s : Sys) (c : MmapCell) :
    (MmapCell.dropCell ok s c).2 = [ok]
  ∧ (ok = false → (MmapCell.dropCell ok s c).1 = s)
  ∧ (ok = true → (MmapCell.dropCell ok s c).1 = s.flush c) := by
  refine ⟨rfl, ?_, ?_⟩ <;> intro h <;> subst h <;> simp [MmapCell.dropCell]

/-- C7 witness: a failed flush at drop time is silently discarded, leaving
the state unchanged. -/
theorem drop_flushes_once_discards_failure_witness :
    (MmapCell.dropCell false ⟨[], []⟩ ⟨0⟩).1 = (⟨[], []⟩ : Sys) :=
  (drop_flushes_once_discards_failure false ⟨[], []⟩ ⟨0⟩).2.1 rfl

/-- C8: the unsafe constructor `new` performs no check of the supplied
mapping against `T` and has no side effect beyond storing the mapping:
the state is returned unchanged, the wrapper stores exactly the supplied
handle, the mapping bytes are untouched, and construction succeeds even
when the supplied mapping length differs from `size_of::<T>()`. -/
theorem new_unchecked_no_effect (n : Nat) (s : Sys) (id : Nat) :
    (MmapCell.new s id).1 = s
  ∧ (MmapCell.new s id).2.raw = id
  ∧ Sys.mapBytes (MmapCell.new s id).1 id = s.mapBytes id
  ∧ ((s.mapBytes id).length ≠ n → MmapCell.new s id = (s, ⟨id⟩)) :=
  ⟨rfl, rfl, rfl, fun _ => rfl⟩

/-- C8 witness: wrapping a mapping of length 0 as a cell for a type of
size 1 succeeds and stores the handle, with no state change. -/
theorem new_unchecked_no_effect_witness :
    (Sys.mapBytes ⟨[], []⟩ 0).length ≠ 1 ∧
      MmapCell.new ⟨[], []⟩ 0 = ((⟨[], []⟩ : Sys), (⟨0⟩ : MmapCell)) :=
  ⟨by decide, (new_unchecked_no_effect 1 ⟨[], []⟩ 0).2.2.2 (by decide)⟩

/-- C9: two instances independently constructed with `new_anon` share no
backing memory: writing any value through one instance leaves the value
read through the other unchanged, in both directions. -/
theorem anon_instances_isolated (n m : Nat) (s0 : Sys) (v w : List Byte) :
    MmapCell.get n
      (MmapCell.get_mut_write (MmapCell.new_anon m (MmapCell.new_anon n s0).1).1
        (MmapCell.new_anon m (MmapCell.new_anon n s0).1).2 v)
      (MmapCell.new_anon n s0).2 =
      MmapCell.get n (MmapCell.new_anon m (MmapCell.new_anon n s0).1).1
        (MmapCell.new_anon n s0).2
  ∧ MmapCell.get m
      (MmapCell.get_mut_write (MmapCell.new_anon m (MmapCell.new_anon n s0).1).1
        (MmapCell.new_anon n s0).2 w)
      (MmapCell.new_anon m (MmapCell.new_anon n s0).1).2 =
      MmapCell.get m (MmapCell.new_anon m (MmapCell.new_anon n s0).1).1
        (MmapCell.new_anon m (MmapCell.new_anon n s0).1).2 := by
  have hne : (MmapCell.new_anon m (MmapCell.new_anon n s0).1).2.raw ≠
      (MmapCell.new_anon n s0).2.raw := by
    simp [MmapCell.new_anon, Sys.alloc, MmapCell.new]
  constructor
  · rw [MmapCell.get, mapBytes_get_mut_write_ne _ _ _ _ hne, MmapCell.get]
  · rw [MmapCell.get, mapBytes_get_mut_write_ne _ _ _ _ (Ne.symm hne), MmapCell.get]

/-! Equational characterizations of the constructors, used by the remaining
claim proofs. -/

theorem new_anon_eq (n : Nat) (s : Sys) :
    MmapCell.new_anon n s =
      ({ s with maps := s.maps ++ [⟨List.replicate n 0, none⟩] },
       ⟨s.maps.length⟩) := rfl

theorem new_named_eq (n : Nat) (s : Sys) (p : String) :
    MmapCell.new_named n s p =
      ({ fs := fsUpdate s.fs p (setLen ((fsLookup s.fs p).getD []) n),
         maps := s.maps ++ [⟨setLen ((fsLookup s.fs p).getD []) n, some p⟩] },
       ⟨s.maps.length⟩) := rfl

theorem open_named_of_lookup (s : Sys) (p : String) (bs : List Byte)
    (h : fsLookup s.fs p = some bs) :
    MmapCell.open_named s p =
      some ({ s with maps := s.maps ++ [⟨bs, some p⟩] }, ⟨s.maps.length⟩) := by
  simp [MmapCell.open_named, Sys.alloc, MmapCell.new, h]

theorem mapBytes_eq_of_maps_eq (s1 s2 : Sys) (i : Nat) (h : s1.maps = s2.maps) :
    s1.mapBytes i = s2.mapBytes i := by
  simp [Sys.mapBytes, h]

theorem mapBytes_new_named (n : Nat) (s : Sys) (p : String) :
    Sys.mapBytes (MmapCell.new_named n s p).1 (MmapCell.new_named n s p).2.raw =
      setLen ((fsLookup s.fs p).getD []) n := by
  rw [new_named_eq]
  simp [Sys.mapBytes, getElem?_append_last]

/-- C3 counterexample: the claim fails for `open_named`. With a type of size
4 (`n = 4`) and an existing file "f" of 2 bytes, `open_named` succeeds and
the backing mapping has byte length 2, not 4. -/
theorem mapping_size_invariant_counterexample :
    (MmapCell.open_named ⟨[("f", [1, 2])], []⟩ "f").map
        (fun r => (Sys.mapBytes r.1 r.2.raw).length) = some 2
    ∧ (2 : Nat) ≠ 4 := by
  constructor
  · decide
  · decide

/-- C3 amended: instances produced by `new_anon` and `new_named` have a
backing mapping of byte length exactly `size_of::<T>()` at construction,
and this length is preserved by a write of a `size_of::<T>()`-byte value
through `get_mut` and by drop (`get` reads without changing any state);
an instance produced by `open_named` has a backing mapping whose byte
length equals the length of the opened file, whatever it is; and `new`
stores the supplied mapping unchecked, with whatever length it has. -/
theorem mapping_size_invariant_amended (n : Nat) (s0 : Sys) (p : String)
    (v : List Byte) (hv : v.length = n) :
    (Sys.mapBytes (MmapCell.new_anon n s0).1
        (MmapCell.new_anon n s0).2.raw).length = n
  ∧ (Sys.mapBytes (MmapCell.new_named n s0 p).1
        (MmapCell.new_named n s0 p).2.raw).length = n
  ∧ (Sys.mapBytes
        (MmapCell.get_mut_write (MmapCell.new_anon n s0).1
          (MmapCell.new_anon n s0).2 v)
        (MmapCell.new_anon n s0).2.raw).length = n
  ∧ (∀ ok, (Sys.mapBytes
        (MmapCell.dropCell ok (MmapCell.new_anon n s0).1
          (MmapCell.new_anon n s0).2).1
        (MmapCell.new_anon n s0).2.raw).length = n)
  ∧ (Sys.mapBytes
        (MmapCell.get_mut_write (MmapCell.new_named n s0 p).1
          (MmapCell.new_named n s0 p).2 v)
        (MmapCell.new_named n s0 p).2.raw).length = n
  ∧ (∀ ok, (Sys.mapBytes
        (MmapCell.dropCell ok (MmapCell.new_named n s0 p).1
          (MmapCell.new_named n s0 p).2).1
        (MmapCell.new_named n s0 p).2.raw).length = n)
  ∧ (∀ bs, fsLookup s0.fs p = some bs →
      ∀ r, MmapCell.open_named s0 p = some r →
        (Sys.mapBytes r.1 r.2.raw).length = bs.length)
  ∧ (∀ id, Sys.mapBytes (MmapCell.new s0 id).1 (MmapCell.new s0 id).2.raw =
        s0.mapBytes id) := by
  refine ⟨?_, ?_, ?_, ?_, ?_, ?_, ?_, ?_⟩
  · rw [mapBytes_new_anon]; simp
  · rw [mapBytes_new_named, length_setLen]
  · have hm : ((MmapCell.new_anon n s0).1).maps[(MmapCell.new_anon n s0).2.raw]? =
        some ⟨List.replicate n 0, none⟩ := by
      rw [new_anon_eq]
      exact getElem?_append_last s0.maps _
    rw [mapBytes_get_mut_write _ _ _ _ hm]
    subst hv
    simp [List.drop_replicate]
  · intro ok
    rw [mapBytes_eq_of_maps_eq _ (MmapCell.new_anon n s0).1 _
      (dropCell_maps ok _ _), mapBytes_new_anon]
    simp
  · have hm : ((MmapCell.new_named n s0 p).1).maps[(MmapCell.new_named n s0 p).2.raw]? = some (⟨setLen ((fsLookup s0.fs p).getD []) n, some p⟩ : Mapping) :=
      getElem?_append_last s0.maps _
    rw [mapBytes_get_mut_write _ _ _ _ hm]
    simp only [List.length_append, List.length_drop, length_setLen]
    omega
  · intro ok
    rw [mapBytes_eq_of_maps_eq _ (MmapCell.new_named n s0 p).1 _
      (dropCell_maps ok _ _), mapBytes_new_named, length_setLen]
  · intro bs hbs r hr
    rw [open_named_of_lookup s0 p bs hbs] at hr
    cases hr
    simp [Sys.mapBytes, getElem?_append_last]
  · intro id
    rfl

/-- C3 amended witness: concrete checks at size 2. -/
theorem mapping_size_invariant_amended_witness :
    ([5, 6] : List Byte).length = 2 ∧
      (Sys.mapBytes (MmapCell.new_anon 2 ⟨[], []⟩).1
        (MmapCell.new_anon 2 ⟨[], []⟩).2.raw).length = 2 :=
  ⟨by decide, (mapping_size_invariant_amended 2 ⟨[], []⟩ "f" [5, 6] rfl).1⟩

/-- C4: `new_named` opens the file creating it if absent without truncating
existing content, then resizes it to exactly `size_of::<T>()` bytes: the
resulting file has length `n`; if the old content (empty when the file was
absent) was no longer than `n`, it is kept and extended with zero bytes;
if it was longer, it is truncated to its first `n` bytes. -/
theorem new_named_create_sizing (n : Nat) (s0 : Sys) (p : String)
    (old : List Byte) (hold : (fsLookup s0.fs p).getD [] = old) :
    fsLookup (MmapCell.new_named n s0 p).1.fs p =
        some (old.take n ++ List.replicate (n - old.length) 0)
  ∧ (∀ f, fsLookup (MmapCell.new_named n s0 p).1.fs p = some f → f.length = n)
  ∧ (old.length ≤ n →
      fsLookup (MmapCell.new_named n s0 p).1.fs p =
        some (old ++ List.replicate (n - old.length) 0))
  ∧ (n ≤ old.length →
      fsLookup (MmapCell.new_named n s0 p).1.fs p = some (old.take n)) := by
  have hfs : fsLookup (MmapCell.new_named n s0 p).1.fs p = some (setLen old n) := by
    rw [new_named_eq, hold]
    exact fsLookup_fsUpdate_self _ _ _
  refine ⟨?_, ?_, ?_, ?_⟩
  · rw [hfs]; rfl
  · intro f hf
    rw [hfs] at hf
    cases hf
    exact length_setLen old n
  · intro h
    rw [hfs, setLen_of_length_le old n h]
  · intro h
    rw [hfs, setLen_of_le_length old n h]

/-- C4 witness: a pre-existing 2-byte file grows to 4 bytes, the added
bytes zero; a pre-existing 3-byte file shrinks to its first 2 bytes. -/
theorem new_named_create_sizing_witness :
    fsLookup (MmapCell.new_named 4 ⟨[("f", [1, 2])], []⟩ "f").1.fs "f" =
        some ([1, 2] ++ List.replicate 2 0)
    ∧ fsLookup (MmapCell.new_named 2 ⟨[("f", [1, 2, 3])], []⟩ "f").1.fs "f" =
        some ([1, 2, 3].take 2) :=
  ⟨(new_named_create_sizing 4 ⟨[("f", [1, 2])], []⟩ "f" [1, 2] rfl).2.2.1
      (by decide),
   (new_named_create_sizing 2 ⟨[("f", [1, 2, 3])], []⟩ "f" [1, 2, 3] rfl).2.2.2
      (by decide)⟩

/-- C5: `open_named` fails when the file at the given path does not exist
(it never creates a file); when the file exists, whatever its length, it
succeeds, maps the file writable without changing the filesystem at all,
and the file length is unchanged after the instance is dropped (absent
new writes), whether the drop-time flush succeeds or fails; in
particular, on a file whose length equals `size_of::<T>()`, it succeeds
and the file length is still `size_of::<T>()` after drop. -/
theorem open_named_no_create_no_resize (n : Nat) (s0 : Sys) (p : String) :
    (fsLookup s0.fs p = none → MmapCell.open_named s0 p = none)
  ∧ (∀ bs, fsLookup s0.fs p = some bs →
      (MmapCell.open_named s0 p).isSome = true
      ∧ ∀ r, MmapCell.open_named s0 p = some r →
          r.1.fs = s0.fs
          ∧ (∀ ok, (fsLookup (MmapCell.dropCell ok r.1 r.2).1.fs p).map
              List.length = some bs.length)
          ∧ (bs.length = n →
              ∀ ok, (fsLookup (MmapCell.dropCell ok r.1 r.2).1.fs p).map
                List.length = some n)) := by
  constructor
  · intro h
    simp [MmapCell.open_named, h]
  · intro bs hbs
    have hopen := open_named_of_lookup s0 p bs hbs
    constructor
    · rw [hopen]; rfl
    · intro r hr
      rw [hopen] at hr
      have hgen : ∀ ok, (fsLookup (MmapCell.dropCell ok r.1 r.2).1.fs p).map
          List.length = some bs.length := by
        cases hr
        intro ok
        cases ok with
        | false =>
          simp only [MmapCell.dropCell, Bool.false_eq_true, if_false]
          rw [hbs]
          simp
        | true =>
          have hm : (s0.maps ++ [⟨bs, some p⟩])[s0.maps.length]? =
              some (⟨bs, some p⟩ : Mapping) :=
            getElem?_append_last s0.maps _
          have hfl := flush_fs_of_named
            ({ s0 with maps := s0.maps ++ [⟨bs, some p⟩] }) ⟨s0.maps.length⟩ bs p hm
          simp only [MmapCell.dropCell, if_true]
          rw [hfl, fsLookup_fsUpdate_self]
          simp
      refine ⟨?_, hgen, ?_⟩
      · cases hr
        rfl
      · intro hbn ok
        rw [hgen ok, hbn]

/-- C5 witness: opening a missing path fails; opening an existing 3-byte
file for a type of size 3 succeeds, and so does opening an existing
2-byte file for a type of size 4. -/
theorem open_named_no_create_no_resize_witness :
    MmapCell.open_named (⟨[], []⟩ : Sys) "g" = none
    ∧ (MmapCell.open_named (⟨[("g", [0, 0, 0])], []⟩ : Sys) "g").isSome = true
    ∧ (MmapCell.open_named (⟨[("g", [1, 2])], []⟩ : Sys) "g").isSome = true :=
  ⟨(open_named_no_create_no_resize 3 ⟨[], []⟩ "g").1 rfl,
   ((open_named_no_create_no_resize 3 ⟨[("g", [0, 0, 0])], []⟩ "g").2 [0, 0, 0]
      (by decide)).1,
   ((open_named_no_create_no_resize 4 ⟨[("g", [1, 2])], []⟩ "g").2 [1, 2]
      (by decide)).1⟩

/-- C6: for every value `v` (byte image of length `size_of::<T>()`) and
path `p` with no pre-existing file, constructing with `new_named`, writing
`v` through `get_mut`, dropping the instance (with a successful flush),
and then opening `p` with `open_named` succeeds and yields, via `get`, a
value equal to `v`: writes persist to the file across drop and reopen. -/
theorem named_persistence (n : Nat) (s0 : Sys) (p : String) (v : List Byte)
    (hp : fsLookup s0.fs p = none) (hv : v.length = n) :
    (MmapCell.open_named
        (MmapCell.dropCell true
          (MmapCell.get_mut_write (MmapCell.new_named n s0 p).1
            (MmapCell.new_named n s0 p).2 v)
          (MmapCell.new_named n s0 p).2).1 p).isSome = true
  ∧ ∀ r, MmapCell.open_named
        (MmapCell.dropCell true
          (MmapCell.get_mut_write (MmapCell.new_named n s0 p).1
            (MmapCell.new_named n s0 p).2 v)
          (MmapCell.new_named n s0 p).2).1 p = some r →
      MmapCell.get n r.1 r.2 = v := by
  subst hv
  have hold : (fsLookup s0.fs p).getD [] = ([] : List Byte) := by
    rw [hp]; rfl
  have hsl : setLen ((fsLookup s0.fs p).getD []) v.length =
      List.replicate v.length 0 := by
    rw [hold]; simp [setLen]
  -- the mapping entry right after construction
  have hm1 : ((MmapCell.new_named v.length s0 p).1).maps[(MmapCell.new_named v.length s0 p).2.raw]? = some (⟨setLen ((fsLookup s0.fs p).getD []) v.length, some p⟩ : Mapping) :=
    getElem?_append_last s0.maps _
  rw [hsl] at hm1
  -- the mapping entry after the write holds exactly the bytes of v
  have hm2 : (MmapCell.get_mut_write (MmapCell.new_named v.length s0 p).1 (MmapCell.new_named v.length s0 p).2 v).maps[(MmapCell.new_named v.length s0 p).2.raw]? = some (⟨v, some p⟩ : Mapping) := by
    simp only [MmapCell.get_mut_write, modifyMapping_getElem?_self]
    rw [hm1]
    simp [writeBytes, List.drop_replicate]
  -- after drop (successful flush), the file holds the bytes of v
  have hfs : fsLookup
      (MmapCell.dropCell true
        (MmapCell.get_mut_write (MmapCell.new_named v.length s0 p).1
          (MmapCell.new_named v.length s0 p).2 v)
        (MmapCell.new_named v.length s0 p).2).1.fs p = some v := by
    simp only [MmapCell.dropCell, if_true]
    rw [flush_fs_of_named _ _ _ _ hm2, fsLookup_fsUpdate_self]
  have hopen := open_named_of_lookup _ p v hfs
  constructor
  · rw [hopen]; rfl
  · intro r hr
    rw [hopen] at hr
    cases hr
    simp [MmapCell.get, Sys.mapBytes, getElem?_append_last]

/-- C6 witness: a 1-byte value 42 written at fresh path "h" survives drop
and reopen. -/
theorem named_persistence_witness :
    fsLookup (⟨[], []⟩ : Sys).fs "h" = none ∧
      (MmapCell.open_named
        (MmapCell.dropCell true
          (MmapCell.get_mut_write (MmapCell.new_named 1 ⟨[], []⟩ "h").1
            (MmapCell.new_named 1 ⟨[], []⟩ "h").2 [42])
          (MmapCell.new_named 1 ⟨[], []⟩ "h").2).1 "h").isSome = true :=
  ⟨rfl, (named_persistence 1 ⟨[], []⟩ "h" [42] rfl rfl).1⟩
